import Mathlib

/-!
Shallow embedding of the Word Psychic backend (src/backend/app.py):
the session state machine, its offer/decline/reoffer selection policy,
the intent normalizer and the closing-summary builder, together with
proofs of the specification's invariants and functional claims.

Randomness in the source (`random.choice` on fixed prompt pools,
`random.random`, `random.shuffle`) is modelled by an explicit `Draws`
record: pool draws become indices into the corresponding pool, the
0.35 coin becomes a boolean, and the reshuffle of the rejected pool
becomes a function required (where it matters) to produce permutations.
-/

namespace WordPsychic

/-- One word cluster of the static catalog: title, first-time intro line,
authored engagement question and full reveal script. -/
structure Cluster where
  title : String
  intro_line : String
  continue_q : String
  script : String
deriving DecidableEq, Inhabited

def ANOTHER_WORD_PROMPTS : List String := [
  "Would you like another word?",
  "Shall we draw another word?",
  "Do you want to receive another word?"
]

def GOODBYES : List String := [
  "Maybe another time.",
  "Very well — until we meet again.",
  "The veil closes. Come back when you’re ready."
]

def COURTEOUS_EXIT : List String := [
  "Travel well — and keep your words sharp and kind.",
  "I wish you a fond goodbye. And may the words be with you.",
  "Farewell. May your vocabulary grow brighter every day."
]

def DECLINE_CONFIRM_PROMPTS : List String := [
  "Very well. Shall I offer another word?",
  "As you wish. Would you like another word?",
  "Understood. Shall I reveal another word?",
  "The word retreates into silence.  Shall I call forth another?",
  "So be it.  Shall we draw again from the beyond?",
  "Fair enough. Shall I offer you a new word?"
]

def INVALID_YN_PROMPTS : List String := [
  "Please choose Yes or No.",
  "A simple Yes or No will do.",
  "Click Yes or No to proceed.",
  "Yes opens the door, no keeps it shut.",
  "A single Yes or No will guide us forward."
]

def INVALID_YNE_PROMPTS : List String := [
  "Please choose Yes, No, or End session.",
  "Click Yes, No, or End session.",
  "Choose Yes, No, or End session to continue.",
  "Yes, No, or End session — your call.",
  "The veil awaits: Yes, No, or End Session."
]

def CONTINUE_Q_VARIANTS : List String := [
  "Shall we journey further with this word?",
  "Do you want to go deeper with this word?",
  "Would you like to explore this word a little further?",
  "Shall we go further with this word?",
  "Do you wish to continue the journey with this word?"
]

def REOFFER_PROMPTS : List String := [
  "You declined some words earlier. Shall I offer them again?",
  "Some words were set aside. Would you like me to bring them back?",
  "A few words still linger in the shadows. Shall I offer them again?",
  "You passed on some words before. Shall we revisit them?",
  "There are words you turned away. Would you like another chance at them?"
]

def SHORT_HINT_OPENING : String := "Choose Yes or No."

def SHORT_HINT : String := "Choose Yes, No, or End session."

def CLUSTERS : List Cluster := [
  { title := "Antipathy → Vilify → Annihilate",
    intro_line := "Your word is “antipathy.”\n\n",
    continue_q := "Shall we journey further with this word?",
    script :=
      "Antipathy means a strong dislike.\nThe rooster showed antipathy toward his alarm clock.\n\nI see another word. Vilify -- To attack someone’s reputation.\nBusted with a stolen ten percent off coupon for a nuclear reactor, the thief vilified the detective online.\n\nA final word. Annihilate -- To utterly destroy.\nAfter annihilating the town, the hurricane wondered if it should cut back on the caffeine.\n\nAntipathy. Vilify. Annihilate.\nYour fortune: Ill will destroys quietly, guarding against it leaves room for peace." },
  { title := "Prudent → Revere → Venerate",
    intro_line := "Your word is “prudent.”\n\n",
    continue_q := "Shall we journey further with this word?",
    script :=
      "Prudent means being careful and wise.\nThe demanding CEO wants a prudent business plan -- now!\n\nI see a second word. Revere -- To respect and honor deeply.\nPizza was revered among the dogs for calming their hysterical disagreements.\n\nA final word. Venerate -- To hold as sacred.\nBecause it thought its whistle sang wisdom, the frying pan venerated the old tea kettle.\n\nPrudent. Revere. Venerate.\nYour fortune: Choose carefully, cherish quality, and your name will inspire." },
  { title := "Dearth → Paucity → Penury",
    intro_line := "Your word is “dearth.”\n\n",
    continue_q := "Shall we journey further with this word?",
    script :=
      "Dearth means a lack. A scarcity.\nA dearth of thrown darts made the target feel neglected.\n\nI see another word. Paucity -- A small amount.\nNot surprisingly, a paucity of snacks irritated the couch potatoes.\n\nA final word. Penury -- Extreme poverty.\nThe novel's hero escaped penury through grit and kindness.\n\nDearth. Paucity. Penury.\nYour fortune: Be mindful of waste, and you will prosper." },
  { title := "Minuscule → Nominal → Insignificant",
    intro_line := "Your word is “minuscule.”\n\n",
    continue_q := "Shall we journey further with this word?",
    script :=
      "Minuscule means extremely small.\nVictory seemed minuscule thought the grass as it battled the weeds.\n\nI see another word. Nominal -- Small in name or importance.\nA nominal error unbeleivably ruined the mosquitos' family chicken dinner.\n\nA final word. Insignificant -- Too small or unimportant to matter.\nLooking up at the towering skyscrapers, even Godzilla felt insignificant.\n\nMinuscule. Nominal. Insignificant.\nYour fortune: Make your voice be heard. And the world leans in." },
  { title := "Aggregate → Plethora → Prodigious",
    intro_line := "Your word is “aggregate.”\n\n",
    continue_q := "Shall we journey further with this word?",
    script :=
      "Aggregate means a collection, a sum, a total.\nThe aggregate of the day’s sales had the calculator singing ka-ching, ka-ching.\n\nI see another word.  Plethora -- An excess. More than enough.\nA plethora of lettuce-eating rabbits made the hungry groundhog hopping mad.\n\nA final word. Prodigious -- Extraordinary large.\nHaving drunk a prodigious amount of water, the athlete thirsted for a rest room.\n\nAggregate. Plethora. Prodigious.\nYour fortune: Excess always makes itself known. Sometimes at inconvenient moments." },
  { title := "Benevolence → Philanthropy → Largess",
    intro_line := "Your word is “benevolence.”\n\n",
    continue_q := "Shall we journey further with this word?",
    script :=
      "Benevolence means kindness. Inclination to do good.\nMy dog showed great benevolence -- he only ate half of my sandwich lying on the counter.\n\nI see another word.  Philanthropy. Love of humankind as expressed by doing good deeds.\nThe particpant at The Three Stooges Festical performed his own unique philanthropy -- on stage burping to the song, 'Pop Goes The Weasel.'\n\nA final word. Largess -- Generosity on a big scale. The gift itself.\nGiving the Earth a second moon was surprising largess, especially coming from the Plutonians.\n\nBenevolence. Philanthropy. Largess.\nYour fortune: Generosity may cost time and money, but its return can’t be bought." },
  { title := "Insidious → Belligerent → Vitriolic",
    intro_line := "Your word is “insidious.”\n\n",
    continue_q := "Shall we journey further with this word?",
    script :=
      "Insidious means sneaky. Causing harm in a gradual way.\nThe stomach’s insidious plan to grow larger was to ensure donuts were always next to the TV remote.\n\nI see another word.  Belligerent -- Combative; Quarrelsome; Warlike.\nDriving a tank across a neighbor’s lawn is certainly belligerent, especially when there’s a posted sign that says “Keep Off The Grass.”\n\nA final word. Vitriolic -- Nasty; Venomous. Burning like acid.\nBig Foot found the campers calling him Big Foot vitriolic –- his name is “George” –- they only had to ask.\n\nInsidious. Belligerent. Vitriolic.\nYour fortune: Attacks can feel good momentarily. But the damage they cause is not easily mended." },
  { title := "Laconic → Perfunctory → Concise",
    intro_line := "Your word is “laconic.”\n\n",
    continue_q := "Shall we journey further with this word?",
    script :=
      "Laconic means using few words to the point of rudeness.\nThe teenager suddenly wasn’t laconic when explaining why he needed twenty dollars.\n\nI see another word.  Perfunctory --  Lacking interest or enthusiasm.\nIn 100-degree heat, the sled dogs grew perfunctory pulling the obese man up the hill.\n\nA final word. Concise -- Brief and to the point.\nInstead of going on about moisturizer benefits, the pinky was concise and told the thumb “it’s just good for you.”\n\nLaconic. Perfunctory. Concise.\nYour fortune: Interest and directness are often welcomed." },
  { title := "Copious → Protract → Ponderous",
    intro_line := "Your word is “copious.”\n\n",
    continue_q := "Shall we journey further with this word?",
    script :=
      "Copious means abundant. Plentiful.\nThe selfish violinist took copious notes, leaving the rest of the orchestra with hardly any music to play.\n\nI see another word. Protract -- To prolong. To lengthen.\nHoping to increase popcorn sales, the theatre protracted the movie’s third act by playing it in slow motion.\n\nA final word. Ponderous -- Slow, heavy, or dull, especially in speech or thought.\nHis ponderous speech on why he should be president of the Pie Eaters Club killed everyone’s appetite for electing him.\n\nCopious. Protract. Ponderous.\nYour fortune: Going one step too far can be fatal when you’re already at the edge." },
  { title := "Apprehensive → Diffident → Capitulate",
    intro_line := "Your word is “apprehensive.”\n\n",
    continue_q := "Shall we journey further with this word?",
    script :=
      "Apprehensive means uneasy or anxious about what may happen.\nThe worm felt apprehensive about crawling around at dawn –- the early bird might be out there.\n\nI see another word. Diffident -- Timid or lacking self-confidence. Shy.\nHe stepped forward, ready to answer, but then the diffident boy quickly stepped back.\n\nA final word. Capitulate -- To give up or surrender.\nFaced with a hungry mouth, the piece of cake capitulated and said, “Farewell.”\n\nApprehensive. Diffident. Capitulate.\nYour fortune: Fear itself isn’t dangerous, what you do because of it is." },
  { title := "Dauntless → Imperious → Demagogue",
    intro_line := "Your word is “dauntless.”\n\n",
    continue_q := "Shall we journey further with this word?",
    script :=
      "Dauntless means fearless and confident.\nTexting his boss that he quit, the dauntless worker ended the message with a smiling emoji.\n\nI see another word. Imperious -- Bossy and arrogantly commanding.\nThe imperious mustard told the relish and mayonnaise -- 'the coldest spot in the refrigerator is mine!'\n\nA final word. Demagogue -- A leader who gains support by manipulating emotions or fears.\nVote for the devil, the demagogue said, or every angel loses its wings.\n\nDauntless. Imperious. Demagogue.\nYour fortune: Self-confidence can be admired, but bullying, not so much." },
  { title := "Reparation → Respite → Salutary",
    intro_line := "Your word is “reparation.”\n\n",
    continue_q := "Shall we journey further with this word?",
    script :=
      "Reparation means compensation for a wrong.\nFor stealing the twinkie, the Court of Sweets ruled that the reparation would be a pint of fudge.\n\nI see another word. Respite -- A short period of rest or relief.\nThe veterinarian ordered the tense turtle to take a month-long respite so he could slow down.\n\nA final word. Salutary -- Producing a beneficial or healing effect.\nJust hiding up in the attic for half-an-hour was salutary for the wife when the mother-in-law visited.\n\nReparation. Respite. Salutary.\nYour fortune: Rest and relaxation calms the mind and soothes the body." },
  { title := "Debilitate → Subjugate → Anguish",
    intro_line := "Your word is “debilitate.”\n\n",
    continue_q := "Shall we journey further with this word?",
    script :=
      "Debilitate means to weaken or cripple.\nThe vampire was debilitated when the garlic-eating man said “hello.”\n\nI see another word. Subjugate -- To bring under control. To dominate.\nBoss Johnson subjugated his workers when he converted their breakroom into his own personal office man cave.\n\nA final word. Anguish -- Severe mental or emotional pain.\nHearing “maybe” caused the amoeba some anguish when it was the paramecium's reply to a date.\n\nDebilitate. Subjugate. Anguish.\nYour fortune: It’s wise to save your strength for truly oppressive days." },
  { title := "Verisimilitude → Apocryphal → Spurious",
    intro_line := "Your word is “verisimilitude.”\n\n",
    continue_q := "Shall we journey further with this word?",
    script :=
      "Verisimilitude means the appearance of being true or real.\nThe anteater thought his painting of the cowhad verisimilitude –- except for the long tubular snout.\n\nI see another word. Apocryphal -- Of doubtful authenticity.\nPointing to the Mona Lisa with a goatee and horns, \"It is definitely apocryphal,\" uttered the counterfeiter.\n\nA final word. Spurious -- False or fake.\n“Totally spurious,” replied the ice box to the toaster’s claim that it could keep pickles cold.\n\nVerisimilitude. Apocryphal. Spurious.\nYour fortune: Examine carefully. There are tricks up some sleeves." },
  { title := "Postulate → Veracity → Precept",
    intro_line := "Your word is “postulate.”\n\n",
    continue_q := "Shall we journey further with this word?",
    script :=
      "Postulate means to consider to be true without evidence. Assume.\nDespite the rat’s loud snoring, the scientist postulated that he was awake.\n\nI see another word. Veracity -- Truthfulness or accuracy.\nGeorge Washington’s veracity about chopping down the cherry tree is admirable, but what about that peach tree?\n\nA final word. Precept -- A rule or principle guiding behavior.\nThe aardvark lived by a twisted precept – do unto him before he does unto you.\n\nPostulate. Veracity. Precept.\nYour fortune: Finding truth is like striking gold." },
  { title := "Inane → Awry → Quixotic",
    intro_line := "Your word is “inane.”\n\n",
    continue_q := "Shall we journey further with this word?",
    script :=
      "Inane means silly. Lacking sense.\nThe peanut butter was inane, thinking it could go it alone as a sandwich without the jelly.\n\nI see another word. Awry -- Off course. Twisted to one side.\nIt went awry, and the golf ball landed in the sock factory -- putting a hole in one.\n\nA final word. Quixotic -- Romantic or idealistic to a foolish degree.\nFrankenstein’s quixotic notion to become a hair stylist was pure fantasy -- he had no training in cosmetology.\n\nInane. Awry. Quixotic.\nYour fortune: Turning onto a dirt road can pave the way for an imaginative adventure." },
  { title := "Singular → Sublime → Apotheosis",
    intro_line := "Your word is “singular.”\n\n",
    continue_q := "Shall we journey further with this word?",
    script :=
      "Singular means unique. Extraordinary. Exceptional.\nHis singular talent walking barefoot on Legos with a smile -- amazed the parents.\n\nI see another word. Sublime -- Awe-inspiring. Extremely high, lofty, and majestic.\nThe sublime beaver not only built the dam, but had it produce enough hydroelectricity to power the nearby city.\n\nA final word. Apotheosis -- Ideal. The perfect or divine version.\nAll the appliances agreed the vintage blender on the counter was the apotheosis, since the mob once used it to dispose of a body.\n\nSingular. Sublime. Apotheosis.\nYour fortune: Individual talents are what make you unique and special." },
  { title := "Conventional → Adage → Renaissance",
    intro_line := "Your word is “conventional.”\n\n",
    continue_q := "Shall we journey further with this word?",
    script :=
      "Conventional means common. Customary. Unexceptional.\nA conventional hen, Betty turned down the offer for the free tattoo, “Born to Cluck.”\n\nI see another word. Adage -- An old saying. A familiar bit of wisdom.\nThe organic medicine man’s updated adage: to keep the doctor away, drink an apple smoothie a day.\n\nA final word. Renaissance -- A rebirth. Revitalization.\nWhen the old turntable saw there was a renaissance in vinyl records, he reminisced about the good old days when songs skipped.\n\nConventional. Adage. Renaissance.\nYour fortune: The tried-and-true way of doing things can be boring -- but dependable." },
  { title := "Novel → Unprecedented → Visionary",
    intro_line := "Your word is “novel.”\n\n",
    continue_q := "Shall we journey further with this word?",
    script :=
      "Novel means new and original.\nThe banana’s novel idea was a genetically modified banana peel with a non-slip coating.\n\nI see another word. Unprecedented -- Not done before, entirely new.\nIn an unprecedented ruling, the judge ordered the litterbug to pick up after all the teenagers in Oh No County.\n\nA final word. Visionary -- A dreamer. Idealistic and usually impractical.\nSam the Seagul fancied himself a visionary, constructing all ocean jetties out of spicy chili fries.\n\nNovel. Unprecedented. Visionary.\nYour fortune: For those who benefit from it, the new is exciting. For others, not really." },
  { title := "Charisma → Complicity → Collusion",
    intro_line := "Your word is “charisma.”\n\n",
    continue_q := "Shall we journey further with this word?",
    script :=
      "Charisma means personal magnetism.\nAt first, the new fire hydrant thought its charisma was why the dogs were attracted to him.\n\nI see another word. Complicity -- Participation in wrong doing.\nThe raccoon denied complicity, but he did allow the cheese store robbers to lay low in his den for some cheddar.\n\nA final word. Collusion -- Secret cooperation.\nIn collusion, the basketball cheerleaders cheered “offense,” instead of “defense,” to throw off the home team.\n\nCharisma. Complicity. Collusion.\nYour fortune: Manipulation thrives in secrecy – exposure changes everything." },
  { title := "Autonomous → Reclusive → Sequester",
    intro_line := "Your word is “autonomous.”\n\n",
    continue_q := "Shall we journey further with this word?",
    script :=
      "Autonomous means independent. Self-governing.\nEager to be autonomous, the toddler walked off –- then fell and cried “mommy.”\n\nI see another word. Reclusive -- Withdrawn from society. Avoiding contact.\nPeace and quiet were what the reclusive snake valued –- until a wandering foot came by.\n\nA final word. Sequester -- To set or keep apart.\nTormented by drip, drip, drip, the sink longed to sequester the leaky faucet.\n\nAutonomous . Reclusive. Sequester.\nYour fortune: A life alone has its advantages –- until help is needed." },
  { title := "Abstruse → Bemused → Cryptic",
    intro_line := "Your word is “abstruse.”\n\n",
    continue_q := "Shall we journey further with this word?",
    script :=
      "Abstruse means difficult to understand.\nThe duck’s quacking was so abstruse that the pig asked him to repeat it in English.\n\nI see another word. Bemused -- To be confused. Bewildered.\nBemused, the workers had to think about the foreman’s order to work faster, not smarter.\n\nA final word. Cryptic -- To be mystifying. Mysterious. Puzzling.\nDecoding the message of the cryptic creaking door, the ghost hunter said, “It wants oil.”\n\nAbstruse. Bemused. Cryptic.\nYour fortune: When life is puzzling, look for the  missing piece – it’s  out there." },
  { title := "Blatant → Salient → Ostentatious",
    intro_line := "Your word is “blatant.”\n\n",
    continue_q := "Shall we journey further with this word?",
    script :=
      "Blatant means unpleasantly loud or obvious.\nAt the town hall meeting discussing the school’s curriculum, the blatant man shouted, “When do we eat?”\n\nI see another word. Salient -- Jutting out. Conspicuous.\nWhen it heard the vacuum cleaner in the other room, the salient hair ball hid under the bed.\n\nA final word. Ostentatious -- Excessively conspicuous. Showy.\n“It’s not ostentatious,” said the buck to the bullfrog, wearing his new bull's eye sweater during hunting season.”\n\nBlatant. Salient. Ostentatious.\nYour fortune: Drawing attention to yourself isn’t always the advantage you think it is." },
  { title := "Steadfast → Tenacious  → Dogmatic",
    intro_line := "Your word is “steadfast.”\n\n",
    continue_q := "Shall we journey further with this word?",
    script :=
      "Steadfast means unwaveringly loyal and faithful.\nJimmy stayed steadfast, refusing to rat out his friend even when bribed with a Snickers bar.\n\nI see another word. Tenacious -- To be persistent. Stubborn.\nThe tenacious cat kept trying to convince the dog the floor was more comfortable than the couch.\n\nA final word. Dogmatic -- Stubbornly assertive of unproven ideas.\nThe bag of sugar was dogmatic, exclaiming that cavities make life better.\n\nSteadfast. Tenacious. Dogmatic.\nYour fortune: Determination can be a strong ally –- if it listens as well as it pushes." },
  { title := "Capricious → Metamorphous  → Mercurial",
    intro_line := "Your word is “capricious.”\n\n",
    continue_q := "Shall we journey further with this word?",
    script :=
      "Capricious means to be whimsical. Unpredictable.\nThe capricious sink drain tormented the homeowner –- some days the water flowed freely, other days, a clog.\n\nI see another word. Metamorphous -- A magical change in appearance.\nHoping the witch’s spell would transform him into a prince, the metamorphous backfired –- and the inchworm became a foot worm.\n\nA final word. Mercurial -- Emotionally unpredictable.\nBeing mercurial, the gambler's mood swung rapidly from intense high-stakes Vegas poker to the sedate calm of local church bingo.\n\nCapricious. Metamorphous. Mercurial.\nYour fortune: Change is intoxicating, but surrendering to it can leave you spent." }
]

/-- The conversation phases of a session
(`intro → await_continue → decline_confirm → post_reveal → reoffer_prompt → done`). -/
inductive Phase where
  | intro
  | awaitContinue
  | declineConfirm
  | postReveal
  | reofferPrompt
  | done
deriving DecidableEq

/-- The mutable per-conversation session state, mirroring the Python dict
created by `new_session`. -/
structure Session where
  sid : Option String
  INSTRUCTION_SHOWN : Bool
  SHORT_HINT_SHOWN : Bool
  remaining : List Nat
  rejected : List Nat
  words_revealed : List String
  first_offer_done : Bool
  reoffer_attempts : Nat
  phase : Phase
  current_idx : Option Nat
deriving DecidableEq

/-- `new_session`: the fresh session. The `random.shuffle` of
`list(range(len(CLUSTERS)))` is modelled by taking the shuffled index list
`idxs` as a parameter; reachability assumes it is a permutation of
`List.range CLUSTERS.length`. -/
def new_session (idxs : List Nat) : Session :=
  { sid := none
    INSTRUCTION_SHOWN := false
    SHORT_HINT_SHOWN := false
    remaining := idxs
    rejected := []
    words_revealed := []
    first_offer_done := false
    reoffer_attempts := 0
    phase := Phase.intro
    current_idx := none }

/-- Python `str.strip()`: drop whitespace from both ends (modelled on the
character list so that the kernel can evaluate it). -/
def strTrim (s : String) : String :=
  ⟨((s.data.dropWhile Char.isWhitespace).reverse.dropWhile Char.isWhitespace).reverse⟩

/-- Python `str.lower()`. -/
def strLower (s : String) : String := ⟨s.data.map Char.toLower⟩

/-- Python `str.rstrip()`: drop whitespace from the right end. -/
def strTrimRight (s : String) : String :=
  ⟨(s.data.reverse.dropWhile Char.isWhitespace).reverse⟩

/-- Python `s[-1]` on a string known to be non-empty (total model: a space
on the empty string, where the Python source would raise). -/
def strBack (s : String) : Char := s.data.getLastD ' '

/-- The intent normalizer (`normalize` in app.py): strip, lower-case, then
map through the fixed table; anything unrecognized falls through as the
stripped lower-cased text. -/
def normalize (a : String) : String :=
  let a := strLower (strTrim a)
  if a = "y" ∨ a = "yes" then "yes"
  else if a = "n" ∨ a = "no" then "no"
  else if a = "q" ∨ a = "quit" then "quit"
  else if a = "s" ∨ a = "stop" ∨ a = "enough" ∨ a = "end" then "stop"
  else a

/-- The response shape produced by `reply` in app.py: a text block, a
terminal flag, and the echoed session id. -/
structure Reply where
  text : String
  done : Bool
  session_id : Option String
deriving DecidableEq

/-- `reply(st, text, done=...)`. -/
def reply (st : Session) (text : String) (d : Bool) : Reply :=
  { text := text, done := d, session_id := st.sid }

/-- `random.choice(ANOTHER_WORD_PROMPTS)`, with the draw as an index. -/
def choose_another_word (k : Nat) : String :=
  ANOTHER_WORD_PROMPTS.getD (k % ANOTHER_WORD_PROMPTS.length) ""

/-- `random.choice(GOODBYES)`. -/
def choose_goodbye (k : Nat) : String :=
  GOODBYES.getD (k % GOODBYES.length) ""

/-- `random.choice(COURTEOUS_EXIT)`. -/
def choose_exit_blessing (k : Nat) : String :=
  COURTEOUS_EXIT.getD (k % COURTEOUS_EXIT.length) ""

/-- `random.choice(DECLINE_CONFIRM_PROMPTS)`. -/
def choose_decline_confirm (k : Nat) : String :=
  DECLINE_CONFIRM_PROMPTS.getD (k % DECLINE_CONFIRM_PROMPTS.length) ""

/-- `random.choice(INVALID_YN_PROMPTS)`. -/
def choose_invalid_yn (k : Nat) : String :=
  INVALID_YN_PROMPTS.getD (k % INVALID_YN_PROMPTS.length) ""

/-- `random.choice(INVALID_YNE_PROMPTS)`. -/
def choose_invalid_yne (k : Nat) : String :=
  INVALID_YNE_PROMPTS.getD (k % INVALID_YNE_PROMPTS.length) ""

/-- `random.choice(CONTINUE_Q_VARIANTS)`. -/
def choose_continue_q (k : Nat) : String :=
  CONTINUE_Q_VARIANTS.getD (k % CONTINUE_Q_VARIANTS.length) ""

/-- `random.choice(REOFFER_PROMPTS)`. -/
def choose_reoffer_prompt (k : Nat) : String :=
  REOFFER_PROMPTS.getD (k % REOFFER_PROMPTS.length) ""

/-- `guidance_flow(st, opening=...)`: returns the mutated session together
with the optional one-time guidance line. -/
def guidance_flow (st : Session) (opening : Bool) : Session × Option String :=
  if opening && !st.INSTRUCTION_SHOWN then
    ({ st with INSTRUCTION_SHOWN := true, SHORT_HINT_SHOWN := false },
      some "Yes opens the door, no keeps it shut.")
  else if st.INSTRUCTION_SHOWN && !st.SHORT_HINT_SHOWN then
    ({ st with SHORT_HINT_SHOWN := true }, some SHORT_HINT)
  else (st, none)

/-- `summary_text(words)`: the summary section of the closing block. -/
def summary_text (words : List String) : String :=
  if words = [] then
    "No words were revealed this time. The veil remains for another day."
  else
    "Here are the words that visited you from the beyond:\n\n"
      ++ String.intercalate "\n\n" words

/-- `closing_block(st)`: summary, optional encouragement line, and a
farewell line normalized to end in terminal punctuation. The blessing draw
is the index `k`. -/
def closing_block (k : Nat) (st : Session) : String :=
  let closing := summary_text st.words_revealed
  let closing :=
    if st.words_revealed = [] then closing
    else closing ++ "\n\nCarry these words carefully; they will open doors when you need them."
  let blessing := strTrimRight (choose_exit_blessing k)
  closing ++ "\n" ++ (if (".!?".data).contains (strBack blessing) then blessing else blessing ++ ".")

/-- One call's worth of random draws: indices into each variation pool, the
0.35 coin for the authored continue-question, and the reshuffle applied to
the rejected pool upon a re-offer. -/
structure Draws where
  anotherWord : Nat
  goodbye : Nat
  exitBlessing : Nat
  declineConf : Nat
  invalidYN : Nat
  invalidYNE : Nat
  continueVariant : Nat
  useAuthoredQ : Bool
  reoffer : Nat
  shuffle : List Nat → List Nat

/-- `pick_continue_question(cluster)`: the authored question when it is
non-empty and the 0.35 coin lands, otherwise a pool variant. -/
def pick_continue_question (o : Draws) (cluster : Cluster) : String :=
  let base := strTrim cluster.continue_q
  if base != "" && o.useAuthoredQ then base else choose_continue_q o.continueVariant

/-- `offer_next_word(st)`: pop a never-offered cluster from the tail of
`remaining` if any; otherwise either invite a re-offer of the declined pool
(at most twice) or end the session. -/
def offer_next_word (o : Draws) (st : Session) : Session × Reply :=
  match st.remaining.getLast? with
  | some idx =>
    let st1 : Session :=
      { st with remaining := st.remaining.dropLast
                current_idx := some idx
                phase := Phase.awaitContinue }
    let cluster := CLUSTERS.getD idx default
    let intro :=
      if st1.first_offer_done then
        "Your new word is “" ++ (cluster.title.splitOn " → ").headD "" ++ ".”\n\n"
      else cluster.intro_line
    let cq := pick_continue_question o cluster
    let gp := guidance_flow st1 (!st1.first_offer_done)
    let st2 := gp.1
    let text := intro ++ cq ++ (match gp.2 with | some g => "\n" ++ g | none => "")
    (st2, reply st2 text false)
  | none =>
    if st.rejected ≠ [] then
      if 2 ≤ st.reoffer_attempts then
        let st1 := { st with phase := Phase.done }
        if st1.words_revealed ≠ [] then
          (st1, reply st1 (closing_block o.exitBlessing st1) true)
        else
          (st1, reply st1 "I have asked you twice about the words you set aside. The veil closes for today." true)
      else
        let st1 :=
          { st with phase := Phase.reofferPrompt
                    reoffer_attempts := st.reoffer_attempts + 1
                    SHORT_HINT_SHOWN := false }
        (st1, reply st1 (choose_reoffer_prompt o.reoffer) false)
    else
      let st1 := { st with phase := Phase.done }
      (st1, reply st1 ("You have received all available words for this session.\n"
        ++ closing_block o.exitBlessing st1) true)

/-- The `/choose` handler body (after session lookup): normalize the raw
answer, honor the global quit/stop escape, then dispatch on the phase. -/
def choose (o : Draws) (st : Session) (answer : String) : Session × Reply :=
  let a := normalize answer
  if a = "quit" ∨ a = "stop" then
    let st1 := { st with phase := Phase.done }
    (st1, reply st1 (closing_block o.exitBlessing st1) true)
  else if st.phase = Phase.intro then
    if a = "yes" then
      offer_next_word o { st with first_offer_done := false }
    else if a = "no" then
      let st1 := { st with phase := Phase.done }
      (st1, reply st1 (choose_goodbye o.goodbye) true)
    else
      (st, reply st (choose_invalid_yn o.invalidYN) false)
  else if st.phase = Phase.awaitContinue then
    if a = "yes" then
      match st.current_idx with
      | none =>
        let st1 := { st with phase := Phase.done }
        (st1, reply st1 "The spirits are quiet. Please refresh to begin anew." true)
      | some idx =>
        let cluster := CLUSTERS.getD idx default
        let st1 :=
          { st with words_revealed := st.words_revealed ++ [cluster.title]
                    first_offer_done := true
                    SHORT_HINT_SHOWN := false
                    phase := Phase.postReveal }
        let another := choose_another_word o.anotherWord
        let gp := guidance_flow st1 false
        let st2 := gp.1
        let tail := "\n\n" ++ another ++ (match gp.2 with | some g => "\n" ++ g | none => "")
        (st2, reply st2 (cluster.script ++ "\n\n" ++ tail) false)
    else if a = "no" then
      let st1 :=
        match st.current_idx with
        | some idx =>
          if idx ∈ st.rejected then st else { st with rejected := st.rejected ++ [idx] }
        | none => st
      let st2 :=
        { st1 with first_offer_done := true
                   phase := Phase.declineConfirm
                   SHORT_HINT_SHOWN := false }
      (st2, reply st2 (choose_decline_confirm o.declineConf) false)
    else
      (st, reply st (choose_invalid_yne o.invalidYNE) false)
  else if st.phase = Phase.declineConfirm then
    if a = "yes" then
      offer_next_word o st
    else if a = "no" then
      let st1 := { st with phase := Phase.done }
      (st1, reply st1 (closing_block o.exitBlessing st1) true)
    else
      (st, reply st (choose_invalid_yne o.invalidYNE) false)
  else if st.phase = Phase.postReveal then
    if a = "yes" then
      offer_next_word o st
    else if a = "no" then
      let st1 := { st with phase := Phase.done }
      (st1, reply st1 (closing_block o.exitBlessing st1) true)
    else
      (st, reply st (choose_invalid_yne o.invalidYNE) false)
  else if st.phase = Phase.reofferPrompt then
    if a = "yes" then
      let st1 :=
        { st with remaining := o.shuffle st.rejected
                  rejected := []
                  first_offer_done := true }
      offer_next_word o st1
    else
      let st1 := { st with phase := Phase.done }
      let text :=
        if 2 ≤ st1.reoffer_attempts then
          "I have asked you twice about the words you set aside. The veil closes for today."
        else
          "Very well. The session is complete. May the meanings serve you."
      let text := if st1.words_revealed ≠ [] then closing_block o.exitBlessing st1 else text
      (st1, reply st1 text true)
  else
    let st1 := { st with phase := Phase.done }
    (st1, reply st1 "The spirits are quiet. Please refresh to begin anew." true)

/-- `session_id or request.cookies.get("wp_sid")` in the `/summary`
endpoint, with Python falsiness of the empty string. -/
def resolve_sid (session_id cookie : Option String) : Option String :=
  match session_id with
  | some s => if s = "" then cookie else some s
  | none => cookie

/-- The GET `/summary` endpoint over an explicit session store (an
association list standing for the `SESSIONS` dict): it returns the store
it was given together with the response text and words list. -/
def summary_get (sessions : List (String × Session)) (session_id cookie : Option String) :
    List (String × Session) × String × List String :=
  match resolve_sid session_id cookie with
  | none => (sessions, "Session expired.", [])
  | some s =>
    if s = "" then (sessions, "Session expired.", [])
    else
      match sessions.find? (fun p => p.1 == s) with
      | none => (sessions, "Session expired.", [])
      | some p => (sessions, summary_text p.2.words_revealed, p.2.words_revealed)

/-- A fixed, concrete instance of the random draws (used by concrete
evaluations); its reshuffle is the identity permutation. -/
def o0 : Draws :=
  { anotherWord := 0
    goodbye := 0
    exitBlessing := 0
    declineConf := 0
    invalidYN := 0
    invalidYNE := 0
    continueVariant := 0
    useAuthoredQ := false
    reoffer := 0
    shuffle := fun l => l }

end WordPsychic

namespace WordPsychic

/-- The title of the cluster with index `i` (the head of the catalog entry). -/
def titleOf (i : Nat) : String := (CLUSTERS.getD i default).title

/-- The reshuffle draw really shuffles: it maps every list to a permutation
of it (as `random.shuffle` does). -/
def OracleOK (o : Draws) : Prop := ∀ l : List Nat, (o.shuffle l).Perm l

/-- Ghost observation of one `/choose` call: the cluster id offered by the
call, if any. A call offers a cluster exactly when it moves the session
into `awaitContinue` (the only assignments of `current_idx` happen there,
and an unrecognized answer in `awaitContinue` leaves the phase unchanged
without a fresh offer). -/
def offerDelta (stOld stNew : Session) : List Nat :=
  if stNew.phase = Phase.awaitContinue ∧ ¬stOld.phase = Phase.awaitContinue then
    [stNew.current_idx.getD 0]
  else []

/-- Reachable session states, paired with the ghost trace of offered
cluster ids: a fresh session starts from a shuffled permutation of the
whole catalog, and every `/choose` call (with permutation-respecting
randomness) is a step. -/
inductive ReachableG : Session → List Nat → Prop where
  | init (idxs : List Nat) (hp : idxs.Perm (List.range CLUSTERS.length)) :
      ReachableG (new_session idxs) []
  | step (st : Session) (off : List Nat) (o : Draws) (a : String)
      (h : ReachableG st off) (ho : OracleOK o) :
      ReachableG (choose o st a).1 (off ++ offerDelta st (choose o st a).1)

/-- The no-early-repeat property of an offer trace: wherever an id `x` is
offered for a second time (it already occurs in the prefix `q` before that
occurrence), the prefix `q` already contains every id of the catalog. -/
def GoodOff (off : List Nat) : Prop :=
  ∀ q x r, off = q ++ x :: r → x ∈ q → ∀ i, i < CLUSTERS.length → i ∈ q

/-- Pool bookkeeping invariant of a session together with its offer
trace; these are the components that `offer_next_word` both needs and
re-establishes. -/
structure PoolInv (st : Session) (off : List Nat) : Prop where
  rem_nodup : st.remaining.Nodup
  rej_nodup : st.rejected.Nodup
  disj : ∀ i ∈ st.remaining, i ∉ st.rejected
  words_nodup : st.words_revealed.Nodup
  rem_ok : ∀ i ∈ st.remaining, i < CLUSTERS.length ∧ titleOf i ∉ st.words_revealed
  rej_ok : ∀ i ∈ st.rejected, i < CLUSTERS.length ∧ titleOf i ∉ st.words_revealed
  att_le : st.reoffer_attempts ≤ 2
  good : GoodOff off
  cover : ∀ i, i < CLUSTERS.length → i ∈ off ∨ i ∈ st.remaining
  fresh_or_full : (∀ i ∈ st.remaining, i ∉ off) ∨ ∀ i, i < CLUSTERS.length → i ∈ off

/-- Full inductive invariant: the pool invariant plus the facts tied to
the current phase (a live current cluster in `awaitContinue` is outside
both pools and not yet accepted; `reofferPrompt` is entered only with an
exhausted `remaining`). -/
structure MInv (st : Session) (off : List Nat) extends PoolInv st off : Prop where
  cur_ok : st.phase = Phase.awaitContinue →
    ∃ i, st.current_idx = some i ∧ i < CLUSTERS.length ∧ i ∉ st.remaining ∧
      i ∉ st.rejected ∧ titleOf i ∉ st.words_revealed
  reoffer_empty : st.phase = Phase.reofferPrompt → st.remaining = []

@[simp]
theorem guidance_remaining (st : Session) (b : Bool) :
    (guidance_flow st b).1.remaining = st.remaining := by
  unfold guidance_flow; split_ifs <;> rfl

@[simp]
theorem guidance_rejected (st : Session) (b : Bool) :
    (guidance_flow st b).1.rejected = st.rejected := by
  unfold guidance_flow; split_ifs <;> rfl

@[simp]
theorem guidance_words (st : Session) (b : Bool) :
    (guidance_flow st b).1.words_revealed = st.words_revealed := by
  unfold guidance_flow; split_ifs <;> rfl

@[simp]
theorem guidance_phase (st : Session) (b : Bool) :
    (guidance_flow st b).1.phase = st.phase := by
  unfold guidance_flow; split_ifs <;> rfl

@[simp]
theorem guidance_current (st : Session) (b : Bool) :
    (guidance_flow st b).1.current_idx = st.current_idx := by
  unfold guidance_flow; split_ifs <;> rfl

@[simp]
theorem guidance_attempts (st : Session) (b : Bool) :
    (guidance_flow st b).1.reoffer_attempts = st.reoffer_attempts := by
  unfold guidance_flow; split_ifs <;> rfl

@[simp]
theorem guidance_first (st : Session) (b : Bool) :
    (guidance_flow st b).1.first_offer_done = st.first_offer_done := by
  unfold guidance_flow; split_ifs <;> rfl

theorem goodOff_nil : GoodOff [] := by
  intro q x r h
  exact absurd h.symm (List.append_ne_nil_of_right_ne_nil q (List.cons_ne_nil x r))

theorem goodOff_extend_not_mem {off : List Nat} {x : Nat}
    (hg : GoodOff off) (hx : x ∉ off) : GoodOff (off ++ [x]) := by
  intro q y r h hy i hiN
  rcases r.eq_nil_or_concat with rfl | ⟨r', z, rfl⟩
  · obtain ⟨rfl, hxy⟩ := List.append_inj' h rfl
    have hxy' : x = y := by simpa using hxy
    subst hxy'
    exact absurd hy hx
  · rw [List.concat_eq_append,
      show q ++ y :: (r' ++ [z]) = (q ++ y :: r') ++ [z] by simp] at h
    obtain ⟨hoff, -⟩ := List.append_inj' h rfl
    exact hg q y r' hoff hy i hiN

theorem goodOff_extend_full {off : List Nat} {x : Nat}
    (hg : GoodOff off) (hfull : ∀ i, i < CLUSTERS.length → i ∈ off) :
    GoodOff (off ++ [x]) := by
  intro q y r h hy i hiN
  rcases r.eq_nil_or_concat with rfl | ⟨r', z, rfl⟩
  · obtain ⟨rfl, -⟩ := List.append_inj' h rfl
    exact hfull i hiN
  · rw [List.concat_eq_append,
      show q ++ y :: (r' ++ [z]) = (q ++ y :: r') ++ [z] by simp] at h
    obtain ⟨hoff, -⟩ := List.append_inj' h rfl
    exact hg q y r' hoff hy i hiN

theorem titleOf_inj {i j : Nat} (hi : i < CLUSTERS.length) (hj : j < CLUSTERS.length)
    (h : titleOf i = titleOf j) : i = j := by
  have hnd : (CLUSTERS.map Cluster.title).Nodup := by decide
  have hmi : i < (CLUSTERS.map Cluster.title).length := by simpa using hi
  have hmj : j < (CLUSTERS.map Cluster.title).length := by simpa using hj
  have hgi : (CLUSTERS.map Cluster.title)[i] = titleOf i := by
    simp only [titleOf, List.getD_eq_getElem CLUSTERS default hi]
    simp
  have hgj : (CLUSTERS.map Cluster.title)[j] = titleOf j := by
    simp only [titleOf, List.getD_eq_getElem CLUSTERS default hj]
    simp
  exact (List.Nodup.getElem_inj_iff hnd).mp (by rw [hgi, hgj, h])

theorem mem_of_getLast?_eq {l : List Nat} {x : Nat} (h : l.getLast? = some x) : x ∈ l := by
  have := List.dropLast_append_getLast? x h
  rw [← this]; simp

end WordPsychic

namespace WordPsychic

theorem offer_pop_state (o : Draws) (st : Session) (idx : Nat)
    (hL : st.remaining.getLast? = some idx) :
    (offer_next_word o st).1 =
      (guidance_flow
        { st with remaining := st.remaining.dropLast, current_idx := some idx,
                  phase := Phase.awaitContinue } (!st.first_offer_done)).1 := by
  simp only [offer_next_word, hL]

theorem offer_exhausted_cap_state (o : Draws) (st : Session)
    (hL : st.remaining.getLast? = none) (hrej : st.rejected ≠ [])
    (hatt : 2 ≤ st.reoffer_attempts) :
    (offer_next_word o st).1 = { st with phase := Phase.done } := by
  simp only [offer_next_word, hL, if_pos hrej, if_pos hatt]
  split <;> rfl

theorem offer_exhausted_cap_done (o : Draws) (st : Session)
    (hL : st.remaining.getLast? = none) (hrej : st.rejected ≠ [])
    (hatt : 2 ≤ st.reoffer_attempts) :
    (offer_next_word o st).2.done = true := by
  simp only [offer_next_word, hL, if_pos hrej, if_pos hatt]
  split <;> rfl

theorem offer_exhausted_reoffer_state (o : Draws) (st : Session)
    (hL : st.remaining.getLast? = none) (hrej : st.rejected ≠ [])
    (hatt : ¬2 ≤ st.reoffer_attempts) :
    (offer_next_word o st).1 =
      { st with phase := Phase.reofferPrompt,
                reoffer_attempts := st.reoffer_attempts + 1,
                SHORT_HINT_SHOWN := false } := by
  simp only [offer_next_word, hL, if_pos hrej, if_neg hatt]

theorem offer_all_done_state (o : Draws) (st : Session)
    (hL : st.remaining.getLast? = none) (hrej : ¬st.rejected ≠ []) :
    (offer_next_word o st).1 = { st with phase := Phase.done } := by
  simp only [offer_next_word, hL, if_neg hrej]

theorem offer_attempts (o : Draws) (st : Session) :
    (offer_next_word o st).1.reoffer_attempts =
      st.reoffer_attempts +
        (if (offer_next_word o st).1.phase = Phase.reofferPrompt then 1 else 0) := by
  rcases hL : st.remaining.getLast? with _ | idx
  · by_cases hrej : st.rejected ≠ []
    · by_cases hatt : 2 ≤ st.reoffer_attempts
      · rw [offer_exhausted_cap_state o st hL hrej hatt]
        simp
      · rw [offer_exhausted_reoffer_state o st hL hrej hatt]
        simp
    · rw [offer_all_done_state o st hL hrej]
      simp
  · rw [offer_pop_state o st idx hL]
    simp

theorem offer_rejected_nil_ne_reoffer (o : Draws) (st : Session)
    (hrej : st.rejected = []) :
    (offer_next_word o st).1.phase ≠ Phase.reofferPrompt := by
  rcases hL : st.remaining.getLast? with _ | idx
  · rw [offer_all_done_state o st hL (by simp [hrej])]
    simp
  · rw [offer_pop_state o st idx hL]
    simp

theorem poolInv_flags (st : Session) (off : List Nat) (h : PoolInv st off)
    (b1 b2 b3 : Bool) (p : Phase) (c : Option Nat) :
    PoolInv { st with INSTRUCTION_SHOWN := b1, SHORT_HINT_SHOWN := b2,
                      first_offer_done := b3, phase := p, current_idx := c } off :=
  ⟨h.rem_nodup, h.rej_nodup, h.disj, h.words_nodup, h.rem_ok, h.rej_ok, h.att_le,
    h.good, h.cover, h.fresh_or_full⟩

theorem minv_flags (st : Session) (off : List Nat) (h : MInv st off) (b1 b2 b3 : Bool) :
    MInv { st with INSTRUCTION_SHOWN := b1, SHORT_HINT_SHOWN := b2,
                   first_offer_done := b3 } off :=
  ⟨⟨h.rem_nodup, h.rej_nodup, h.disj, h.words_nodup, h.rem_ok, h.rej_ok, h.att_le,
      h.good, h.cover, h.fresh_or_full⟩, h.cur_ok, h.reoffer_empty⟩

theorem minv_done (st : Session) (off : List Nat) (h : PoolInv st off) :
    MInv { st with phase := Phase.done } off :=
  ⟨poolInv_flags st off h st.INSTRUCTION_SHOWN st.SHORT_HINT_SHOWN st.first_offer_done
      Phase.done st.current_idx,
    (fun hh => nomatch hh), (fun hh => nomatch hh)⟩

theorem minv_reofferPrompt (st : Session) (off : List Nat) (h : PoolInv st off)
    (hrem : st.remaining = []) (hatt : st.reoffer_attempts < 2) :
    MInv { st with phase := Phase.reofferPrompt,
                   reoffer_attempts := st.reoffer_attempts + 1,
                   SHORT_HINT_SHOWN := false } off := by
  refine ⟨⟨h.rem_nodup, h.rej_nodup, h.disj, h.words_nodup, h.rem_ok, h.rej_ok, ?_,
      h.good, h.cover, h.fresh_or_full⟩, (fun hh => nomatch hh), (fun _ => hrem)⟩
  show st.reoffer_attempts + 1 ≤ 2
  omega

theorem minv_guidance (st : Session) (b : Bool) (off : List Nat) (h : MInv st off) :
    MInv (guidance_flow st b).1 off := by
  unfold guidance_flow
  split_ifs
  · exact minv_flags st off h true false st.first_offer_done
  · exact minv_flags st off h st.INSTRUCTION_SHOWN true st.first_offer_done
  · exact h

theorem minv_pop_base (st : Session) (off : List Nat) (idx : Nat)
    (hL : st.remaining.getLast? = some idx) (h : PoolInv st off) :
    MInv { st with remaining := st.remaining.dropLast, current_idx := some idx,
                   phase := Phase.awaitContinue } (off ++ [idx]) := by
  have hmem : idx ∈ st.remaining := mem_of_getLast?_eq hL
  have hdecomp : st.remaining.dropLast ++ [idx] = st.remaining :=
    List.dropLast_append_getLast? idx hL
  have hnotdrop : idx ∉ st.remaining.dropLast := by
    have hnd := h.rem_nodup
    rw [← hdecomp] at hnd
    have := List.nodup_append.mp hnd
    intro hc
    exact this.2.2 hc (List.mem_singleton.mpr rfl)
  have hsub : ∀ i ∈ st.remaining.dropLast, i ∈ st.remaining := fun i hi =>
    (List.dropLast_sublist st.remaining).subset hi
  refine ⟨⟨h.rem_nodup.sublist (List.dropLast_sublist st.remaining), h.rej_nodup,
      fun i hi => h.disj i (hsub i hi), h.words_nodup,
      fun i hi => h.rem_ok i (hsub i hi), h.rej_ok, h.att_le, ?good, ?cover, ?ff⟩,
    ?cur, (fun hh => nomatch hh)⟩
  case good =>
    rcases h.fresh_or_full with hfresh | hfull
    · exact goodOff_extend_not_mem h.good (hfresh idx hmem)
    · exact goodOff_extend_full h.good hfull
  case cover =>
    intro i hiN
    rcases h.cover i hiN with hoff | hrem
    · exact Or.inl (List.mem_append_left _ hoff)
    · rw [← hdecomp] at hrem
      rcases List.mem_append.mp hrem with hd | hx
      · exact Or.inr hd
      · exact Or.inl (List.mem_append_right _ hx)
  case ff =>
    rcases h.fresh_or_full with hfresh | hfull
    · refine Or.inl fun i hi hc => ?_
      rcases List.mem_append.mp hc with hio | hix
      · exact hfresh i (hsub i hi) hio
      · exact hnotdrop (List.mem_singleton.mp hix ▸ hi)
    · exact Or.inr fun i hiN => List.mem_append_left _ (hfull i hiN)
  case cur =>
    intro _
    exact ⟨idx, rfl, (h.rem_ok idx hmem).1, hnotdrop, h.disj idx hmem,
      (h.rem_ok idx hmem).2⟩

theorem minv_offer (o : Draws) (stOld stIn : Session) (off : List Nat)
    (hOld : ¬stOld.phase = Phase.awaitContinue) (h : PoolInv stIn off) :
    MInv (offer_next_word o stIn).1
      (off ++ offerDelta stOld (offer_next_word o stIn).1) := by
  rcases hL : stIn.remaining.getLast? with _ | idx
  · have hrem : stIn.remaining = [] := List.getLast?_eq_none_iff.mp hL
    by_cases hrej : stIn.rejected ≠ []
    · by_cases hatt : 2 ≤ stIn.reoffer_attempts
      · rw [offer_exhausted_cap_state o stIn hL hrej hatt]
        simpa [offerDelta] using minv_done stIn off h
      · rw [offer_exhausted_reoffer_state o stIn hL hrej hatt]
        simpa [offerDelta] using minv_reofferPrompt stIn off h hrem (by omega)
    · rw [offer_all_done_state o stIn hL hrej]
      simpa [offerDelta] using minv_done stIn off h
  · rw [offer_pop_state o stIn idx hL]
    have hbase := minv_pop_base stIn off idx hL h
    have hres := minv_guidance _ (!stIn.first_offer_done) _ hbase
    simpa [offerDelta, hOld] using hres

end WordPsychic

namespace WordPsychic

theorem minv_accept (st : Session) (off : List Nat) (idx : Nat) (h : MInv st off)
    (hph : st.phase = Phase.awaitContinue) (hc : st.current_idx = some idx) :
    MInv { st with words_revealed := st.words_revealed ++ [titleOf idx],
                   first_offer_done := true, SHORT_HINT_SHOWN := false,
                   phase := Phase.postReveal } off := by
  obtain ⟨i0, hci, hiN, hirem, hirej, hititle⟩ := h.cur_ok hph
  rw [hci] at hc
  obtain rfl : i0 = idx := Option.some.inj hc
  have hwords : (st.words_revealed ++ [titleOf i0]).Nodup := by
    refine List.Nodup.append h.words_nodup (List.nodup_singleton _) ?_
    intro x hx hx'
    rw [List.mem_singleton.mp hx'] at hx
    exact hititle hx
  refine ⟨⟨h.rem_nodup, h.rej_nodup, h.disj, hwords, ?ro, ?rj, h.att_le, h.good,
      h.cover, h.fresh_or_full⟩, (fun hh => nomatch hh), (fun hh => nomatch hh)⟩
  case ro =>
    intro i hi
    refine ⟨(h.rem_ok i hi).1, ?_⟩
    intro hmem
    rcases List.mem_append.mp hmem with hw | hs
    · exact (h.rem_ok i hi).2 hw
    · have heq : i = i0 := titleOf_inj (h.rem_ok i hi).1 hiN (List.mem_singleton.mp hs)
      rw [heq] at hi
      exact hirem hi
  case rj =>
    intro i hi
    refine ⟨(h.rej_ok i hi).1, ?_⟩
    intro hmem
    rcases List.mem_append.mp hmem with hw | hs
    · exact (h.rej_ok i hi).2 hw
    · have heq : i = i0 := titleOf_inj (h.rej_ok i hi).1 hiN (List.mem_singleton.mp hs)
      rw [heq] at hi
      exact hirej hi

theorem minv_decline_new (st : Session) (off : List Nat) (idx : Nat) (h : MInv st off)
    (hph : st.phase = Phase.awaitContinue) (hc : st.current_idx = some idx)
    (hnot : idx ∉ st.rejected) :
    MInv { st with rejected := st.rejected ++ [idx], first_offer_done := true,
                   phase := Phase.declineConfirm, SHORT_HINT_SHOWN := false } off := by
  obtain ⟨i0, hci, hiN, hirem, hirej, hititle⟩ := h.cur_ok hph
  rw [hci] at hc
  obtain rfl : i0 = idx := Option.some.inj hc
  have hrejn : (st.rejected ++ [i0]).Nodup := by
    refine List.Nodup.append h.rej_nodup (List.nodup_singleton _) ?_
    intro x hx hx'
    rw [List.mem_singleton.mp hx'] at hx
    exact hnot hx
  refine ⟨⟨h.rem_nodup, hrejn, ?dj, h.words_nodup, ?ro, ?rj, h.att_le, h.good,
      h.cover, h.fresh_or_full⟩, (fun hh => nomatch hh), (fun hh => nomatch hh)⟩
  case dj =>
    intro i hi hmem
    rcases List.mem_append.mp hmem with hold | hs
    · exact h.disj i hi hold
    · rw [List.mem_singleton.mp hs] at hi
      exact hirem hi
  case ro =>
    exact h.rem_ok
  case rj =>
    intro i hi
    rcases List.mem_append.mp hi with hold | hs
    · exact h.rej_ok i hold
    · rw [List.mem_singleton.mp hs]
      exact ⟨hiN, hititle⟩

theorem minv_to_declineConfirm (st : Session) (off : List Nat) (h : MInv st off) :
    MInv { st with first_offer_done := true, phase := Phase.declineConfirm,
                   SHORT_HINT_SHOWN := false } off :=
  ⟨poolInv_flags st off h.toPoolInv st.INSTRUCTION_SHOWN false true Phase.declineConfirm
      st.current_idx,
    (fun hh => nomatch hh), (fun hh => nomatch hh)⟩

theorem poolInv_reoffer_move (o : Draws) (st : Session) (off : List Nat)
    (ho : OracleOK o) (h : MInv st off) (hph : st.phase = Phase.reofferPrompt) :
    PoolInv { st with remaining := o.shuffle st.rejected, rejected := [],
                      first_offer_done := true } off := by
  have hperm := ho st.rejected
  have hrem0 := h.reoffer_empty hph
  have hfull : ∀ i, i < CLUSTERS.length → i ∈ off := by
    intro i hiN
    rcases h.cover i hiN with hoff | hrem
    · exact hoff
    · rw [hrem0] at hrem
      exact absurd hrem (List.not_mem_nil i)
  refine ⟨hperm.nodup_iff.mpr h.rej_nodup, List.nodup_nil,
    (fun i _ => List.not_mem_nil i), h.words_nodup,
    (fun i hi => h.rej_ok i (hperm.mem_iff.mp hi)),
    (fun i hi => absurd hi (List.not_mem_nil i)),
    h.att_le, h.good,
    (fun i hiN => Or.inl (hfull i hiN)),
    Or.inr hfull⟩

theorem minv_step (o : Draws) (st : Session) (a : String) (off : List Nat)
    (ho : OracleOK o) (h : MInv st off) :
    MInv (choose o st a).1 (off ++ offerDelta st (choose o st a).1) := by
  simp only [choose]
  by_cases hqs : normalize a = "quit" ∨ normalize a = "stop"
  · rw [if_pos hqs]
    simpa [offerDelta] using minv_done st off h.toPoolInv
  rw [if_neg hqs]
  by_cases hintro : st.phase = Phase.intro
  · rw [if_pos hintro]
    by_cases hyes : normalize a = "yes"
    · rw [if_pos hyes]
      exact minv_offer o st _ off (by rw [hintro]; exact fun hh => nomatch hh)
        (poolInv_flags st off h.toPoolInv st.INSTRUCTION_SHOWN st.SHORT_HINT_SHOWN false
          st.phase st.current_idx)
    rw [if_neg hyes]
    by_cases hno : normalize a = "no"
    · rw [if_pos hno]
      simpa [offerDelta] using minv_done st off h.toPoolInv
    · rw [if_neg hno]
      simpa [offerDelta, hintro] using h
  rw [if_neg hintro]
  by_cases hawait : st.phase = Phase.awaitContinue
  · rw [if_pos hawait]
    by_cases hyes : normalize a = "yes"
    · rw [if_pos hyes]
      rcases hc : st.current_idx with _ | idx
      · simpa [offerDelta, hc] using minv_done st off h.toPoolInv
      · simpa [offerDelta, hc, titleOf] using
          minv_guidance _ false _ (minv_accept st off idx h hawait hc)
    rw [if_neg hyes]
    by_cases hno : normalize a = "no"
    · rw [if_pos hno]
      rcases hc : st.current_idx with _ | idx
      · simpa [offerDelta, hc] using minv_to_declineConfirm st off h
      · by_cases hmem : idx ∈ st.rejected
        · simpa [offerDelta, hc, hmem] using minv_to_declineConfirm st off h
        · simpa [offerDelta, hc, hmem] using minv_decline_new st off idx h hawait hc hmem
    · rw [if_neg hno]
      simpa [offerDelta, hawait] using h
  rw [if_neg hawait]
  by_cases hdc : st.phase = Phase.declineConfirm
  · rw [if_pos hdc]
    by_cases hyes : normalize a = "yes"
    · rw [if_pos hyes]
      exact minv_offer o st st off (by rw [hdc]; exact fun hh => nomatch hh) h.toPoolInv
    rw [if_neg hyes]
    by_cases hno : normalize a = "no"
    · rw [if_pos hno]
      simpa [offerDelta] using minv_done st off h.toPoolInv
    · rw [if_neg hno]
      simpa [offerDelta, hdc] using h
  rw [if_neg hdc]
  by_cases hpr : st.phase = Phase.postReveal
  · rw [if_pos hpr]
    by_cases hyes : normalize a = "yes"
    · rw [if_pos hyes]
      exact minv_offer o st st off (by rw [hpr]; exact fun hh => nomatch hh) h.toPoolInv
    rw [if_neg hyes]
    by_cases hno : normalize a = "no"
    · rw [if_pos hno]
      simpa [offerDelta] using minv_done st off h.toPoolInv
    · rw [if_neg hno]
      simpa [offerDelta, hpr] using h
  rw [if_neg hpr]
  by_cases hre : st.phase = Phase.reofferPrompt
  · rw [if_pos hre]
    by_cases hyes : normalize a = "yes"
    · rw [if_pos hyes]
      exact minv_offer o st _ off (by rw [hre]; exact fun hh => nomatch hh)
        (poolInv_reoffer_move o st off ho h hre)
    · rw [if_neg hyes]
      simpa [offerDelta] using minv_done st off h.toPoolInv
  · rw [if_neg hre]
    simpa [offerDelta] using minv_done st off h.toPoolInv

theorem minv_init (idxs : List Nat) (hp : idxs.Perm (List.range CLUSTERS.length)) :
    MInv (new_session idxs) [] := by
  have hmem : ∀ i : Nat, i ∈ idxs ↔ i < CLUSTERS.length := by
    intro i
    rw [hp.mem_iff, List.mem_range]
  refine ⟨⟨hp.nodup_iff.mpr (List.nodup_range _), List.nodup_nil,
      (fun i _ => List.not_mem_nil i), List.nodup_nil,
      (fun i hi => ⟨(hmem i).mp hi, List.not_mem_nil _⟩),
      (fun i hi => absurd hi (List.not_mem_nil i)),
      ?_, goodOff_nil,
      (fun i hiN => Or.inr ((hmem i).mpr hiN)),
      Or.inl (fun i _ => List.not_mem_nil i)⟩,
    (fun hh => nomatch hh), (fun hh => nomatch hh)⟩
  show (0 : Nat) ≤ 2
  omega

theorem minv_reachable (st : Session) (off : List Nat) (h : ReachableG st off) :
    MInv st off := by
  induction h with
  | init idxs hp => exact minv_init idxs hp
  | step st off o a h ho ih => exact minv_step o st a off ho ih

end WordPsychic

namespace WordPsychic

/-- The farewell line appended by `closing_block`: the drawn blessing,
right-stripped, with a period appended when its last character is not
terminal punctuation. -/
def closing_farewell (k : Nat) : String :=
  let blessing := strTrimRight (choose_exit_blessing k)
  if (".!?".data).contains (strBack blessing) then blessing else blessing ++ "."

theorem closing_block_eq (k : Nat) (st : Session) :
    closing_block k st =
      (if st.words_revealed = [] then summary_text st.words_revealed
       else summary_text st.words_revealed ++
         "\n\nCarry these words carefully; they will open doors when you need them.")
      ++ "\n" ++ closing_farewell k := rfl

theorem closing_farewell_ends (k : Nat) :
    (closing_farewell k).data.getLast? = some '.' := by
  have hlen : COURTEOUS_EXIT.length = 3 := rfl
  have hlt : k % COURTEOUS_EXIT.length < 3 := by
    rw [hlen]
    exact Nat.mod_lt _ (by decide)
  have h3 : k % COURTEOUS_EXIT.length = 0 ∨ k % COURTEOUS_EXIT.length = 1 ∨
      k % COURTEOUS_EXIT.length = 2 := by omega
  rcases h3 with h | h | h <;>
    simp only [closing_farewell, choose_exit_blessing, h] <;> decide

theorem choose_quitstop (o : Draws) (st : Session) (ans : String)
    (hqs : normalize ans = "quit" ∨ normalize ans = "stop") :
    choose o st ans =
      ({ st with phase := Phase.done },
        reply { st with phase := Phase.done }
          (closing_block o.exitBlessing { st with phase := Phase.done }) true) := by
  simp only [choose, if_pos hqs]

theorem choose_invalid_yn_mem (k : Nat) : choose_invalid_yn k ∈ INVALID_YN_PROMPTS := by
  have hlt : k % INVALID_YN_PROMPTS.length < INVALID_YN_PROMPTS.length :=
    Nat.mod_lt _ (by decide)
  unfold choose_invalid_yn
  rw [List.getD_eq_getElem _ _ hlt]
  exact List.getElem_mem hlt

theorem choose_invalid_yne_mem (k : Nat) : choose_invalid_yne k ∈ INVALID_YNE_PROMPTS := by
  have hlt : k % INVALID_YNE_PROMPTS.length < INVALID_YNE_PROMPTS.length :=
    Nat.mod_lt _ (by decide)
  unfold choose_invalid_yne
  rw [List.getD_eq_getElem _ _ hlt]
  exact List.getElem_mem hlt

theorem offer_cap_forces_done (o : Draws) (st : Session)
    (hrem : st.remaining = []) (hrej : st.rejected ≠ [])
    (hatt : 2 ≤ st.reoffer_attempts) :
    (offer_next_word o st).1.phase = Phase.done ∧
    (offer_next_word o st).2.done = true := by
  have hL : st.remaining.getLast? = none := List.getLast?_eq_none_iff.mpr hrem
  exact ⟨by rw [offer_exhausted_cap_state o st hL hrej hatt],
    offer_exhausted_cap_done o st hL hrej hatt⟩

theorem choose_attempts (o : Draws) (st : Session) (a : String) :
    (choose o st a).1.reoffer_attempts =
      st.reoffer_attempts +
        (if (choose o st a).1.phase = Phase.reofferPrompt ∧
            ¬st.phase = Phase.reofferPrompt then 1 else 0) := by
  simp only [choose]
  by_cases hqs : normalize a = "quit" ∨ normalize a = "stop"
  · rw [if_pos hqs]
    simp
  rw [if_neg hqs]
  by_cases hintro : st.phase = Phase.intro
  · rw [if_pos hintro]
    by_cases hyes : normalize a = "yes"
    · rw [if_pos hyes]
      rw [offer_attempts o { st with first_offer_done := false }]
      simp [hintro]
    rw [if_neg hyes]
    by_cases hno : normalize a = "no"
    · rw [if_pos hno]
      simp
    · rw [if_neg hno]
      simp [hintro]
  rw [if_neg hintro]
  by_cases hawait : st.phase = Phase.awaitContinue
  · rw [if_pos hawait]
    by_cases hyes : normalize a = "yes"
    · rw [if_pos hyes]
      rcases hc : st.current_idx with _ | idx
      · simp
      · simp [hawait]
    rw [if_neg hyes]
    by_cases hno : normalize a = "no"
    · rw [if_pos hno]
      rcases hc : st.current_idx with _ | idx
      · simp
      · by_cases hmem : idx ∈ st.rejected <;> simp [hmem]
    · rw [if_neg hno]
      simp [hawait]
  rw [if_neg hawait]
  by_cases hdc : st.phase = Phase.declineConfirm
  · rw [if_pos hdc]
    by_cases hyes : normalize a = "yes"
    · rw [if_pos hyes]
      rw [offer_attempts o st]
      simp [hdc]
    rw [if_neg hyes]
    by_cases hno : normalize a = "no"
    · rw [if_pos hno]
      simp
    · rw [if_neg hno]
      simp [hdc]
  rw [if_neg hdc]
  by_cases hpr : st.phase = Phase.postReveal
  · rw [if_pos hpr]
    by_cases hyes : normalize a = "yes"
    · rw [if_pos hyes]
      rw [offer_attempts o st]
      simp [hpr]
    rw [if_neg hyes]
    by_cases hno : normalize a = "no"
    · rw [if_pos hno]
      simp
    · rw [if_neg hno]
      simp [hpr]
  rw [if_neg hpr]
  by_cases hre : st.phase = Phase.reofferPrompt
  · rw [if_pos hre]
    by_cases hyes : normalize a = "yes"
    · rw [if_pos hyes]
      rw [offer_attempts o
        { st with remaining := o.shuffle st.rejected, rejected := [],
                  first_offer_done := true }]
      have hne := offer_rejected_nil_ne_reoffer o
        { st with remaining := o.shuffle st.rejected, rejected := [],
                  first_offer_done := true } rfl
      rw [hre] at hne
      simp [hne, hre]
    · rw [if_neg hyes]
      simp
  · rw [if_neg hre]
    simp

end WordPsychic

namespace WordPsychic

/-- A session caught mid-`awaitContinue` whose current cluster's title is
already in the accepted list; used to exhibit that the accept transition
appends unconditionally. -/
def dup_accept_state : Session :=
  { sid := none, INSTRUCTION_SHOWN := true, SHORT_HINT_SHOWN := true,
    remaining := [], rejected := [], words_revealed := [titleOf 0],
    first_offer_done := true, reoffer_attempts := 0,
    phase := Phase.awaitContinue, current_idx := some 0 }

/-- A session on its first re-offer pass (`reofferPrompt`, one increment so
far) with everything declined and nothing accepted — the shape reached by
declining every offered cluster once. -/
def reoffer_first_pass_state : Session :=
  { sid := none, INSTRUCTION_SHOWN := true, SHORT_HINT_SHOWN := false,
    remaining := [], rejected := List.range 25, words_revealed := [],
    first_offer_done := true, reoffer_attempts := 1,
    phase := Phase.reofferPrompt, current_idx := some 0 }

/-- A session in `reofferPrompt` after one increment with one accepted
title; used by witnesses. -/
def reoffer_accepted_state : Session :=
  { new_session [] with
      phase := Phase.reofferPrompt, words_revealed := [titleOf 0],
      reoffer_attempts := 1 }

/-- An exhausted session at the re-offer cap; used by witnesses. -/
def capped_exhausted_state : Session :=
  { new_session [] with rejected := [0], reoffer_attempts := 2 }

/-- C1: in every session, no cluster id is offered (moved into
`awaitContinue` as `currentClusterId`) a second time before every id of the
catalog has been offered at least once: along the ghost trace `off` of
offered ids of any reachable session, wherever an id recurs, the prefix
before its second occurrence already contains all `CLUSTERS.length` ids
(`GoodOff`). -/
theorem offer_trace_no_repeat_before_full_coverage (st : Session) (off : List Nat)
    (h : ReachableG st off) : GoodOff off :=
  (minv_reachable st off h).good

theorem offer_trace_no_repeat_before_full_coverage_witness :
    GoodOff ([] ++
      offerDelta (new_session (List.range CLUSTERS.length))
        (choose o0 (new_session (List.range CLUSTERS.length)) "yes").1) :=
  offer_trace_no_repeat_before_full_coverage _ _
    (ReachableG.step _ _ o0 "yes"
      (ReachableG.init (List.range CLUSTERS.length) (List.Perm.refl _))
      (fun l => List.Perm.refl l))

/-- C2: after every transition of every reachable session (including the
fresh session), the `remaining` and `rejected` pools are disjoint. -/
theorem remaining_rejected_disjoint (st : Session) (off : List Nat)
    (h : ReachableG st off) : ∀ i ∈ st.remaining, i ∉ st.rejected :=
  (minv_reachable st off h).disj

theorem remaining_rejected_disjoint_witness :
    (0 : Nat) ∉ (new_session (List.range CLUSTERS.length)).rejected :=
  remaining_rejected_disjoint _ []
    (ReachableG.init (List.range CLUSTERS.length) (List.Perm.refl _))
    0 (by decide)

/-- C3: `reoffer_attempts` starts at 0; every `/choose` call increments it
by exactly 1 when (and only when) the call enters `reofferPrompt` and
leaves it unchanged otherwise; it never exceeds 2 on reachable sessions;
and once it is 2, Offer-Next with `remaining` empty and `rejected`
non-empty forces `phase = done` with a terminal reply. -/
theorem reoffer_attempts_contract :
    (∀ idxs : List Nat, (new_session idxs).reoffer_attempts = 0) ∧
    (∀ (o : Draws) (st : Session) (a : String),
      (choose o st a).1.reoffer_attempts =
        st.reoffer_attempts +
          (if (choose o st a).1.phase = Phase.reofferPrompt ∧
              ¬st.phase = Phase.reofferPrompt then 1 else 0)) ∧
    (∀ (st : Session) (off : List Nat), ReachableG st off →
      st.reoffer_attempts ≤ 2) ∧
    (∀ (o : Draws) (st : Session), st.remaining = [] → st.rejected ≠ [] →
      2 ≤ st.reoffer_attempts →
      (offer_next_word o st).1.phase = Phase.done ∧
      (offer_next_word o st).2.done = true) :=
  ⟨fun _ => rfl, choose_attempts,
    fun st off h => (minv_reachable st off h).att_le,
    fun o st h1 h2 h3 => offer_cap_forces_done o st h1 h2 h3⟩

theorem reoffer_attempts_contract_witness :
    (new_session (List.range 25)).reoffer_attempts = 0 ∧
    ((choose o0 (new_session (List.range 25)) "maybe").1.reoffer_attempts =
      (new_session (List.range 25)).reoffer_attempts +
        (if (choose o0 (new_session (List.range 25)) "maybe").1.phase =
              Phase.reofferPrompt ∧
            ¬(new_session (List.range 25)).phase = Phase.reofferPrompt
         then 1 else 0)) ∧
    (new_session (List.range CLUSTERS.length)).reoffer_attempts ≤ 2 ∧
    ((offer_next_word o0 capped_exhausted_state).1.phase = Phase.done ∧
      (offer_next_word o0 capped_exhausted_state).2.done = true) := by
  refine ⟨reoffer_attempts_contract.1 (List.range 25),
    reoffer_attempts_contract.2.1 o0 (new_session (List.range 25)) "maybe",
    reoffer_attempts_contract.2.2.1 _ []
      (ReachableG.init (List.range CLUSTERS.length) (List.Perm.refl _)),
    reoffer_attempts_contract.2.2.2 o0 capped_exhausted_state rfl ?_ ?_⟩
  · decide
  · decide

/-- C4: from any of the five live phases, an answer normalizing to `quit`
or `stop` yields `phase = done` and a terminal reply whose text is the
Closing Summary block: the summary section, the encouragement line exactly
when some title was accepted, and the farewell line last, ending in
terminal punctuation. -/
theorem quit_stop_returns_closing_summary (o : Draws) (st : Session) (ans : String)
    (_hph : st.phase = Phase.intro ∨ st.phase = Phase.awaitContinue ∨
      st.phase = Phase.declineConfirm ∨ st.phase = Phase.postReveal ∨
      st.phase = Phase.reofferPrompt)
    (hint : normalize ans = "quit" ∨ normalize ans = "stop") :
    (choose o st ans).1.phase = Phase.done ∧
    (choose o st ans).2.done = true ∧
    (choose o st ans).2.text =
      closing_block o.exitBlessing { st with phase := Phase.done } ∧
    (choose o st ans).2.text =
      (if st.words_revealed = [] then summary_text st.words_revealed
       else summary_text st.words_revealed ++
         "\n\nCarry these words carefully; they will open doors when you need them.")
        ++ "\n" ++ closing_farewell o.exitBlessing ∧
    (closing_farewell o.exitBlessing).data.getLast? = some '.' := by
  rw [choose_quitstop o st ans hint]
  exact ⟨rfl, rfl, rfl,
    closing_block_eq o.exitBlessing { st with phase := Phase.done },
    closing_farewell_ends o.exitBlessing⟩

theorem quit_stop_returns_closing_summary_witness :
    (choose o0 (new_session (List.range 25)) "q").2.done = true ∧
    (choose o0 (new_session (List.range 25)) "q").1.phase = Phase.done := by
  have h := quit_stop_returns_closing_summary o0 (new_session (List.range 25)) "q"
    (Or.inl rfl) (Or.inl rfl)
  exact ⟨h.2.1, h.1⟩

/-- The Closing Summary builder as §4.3 of the specification words it
(refinement comparison definition, written from the spec text): fixed
no-words line on the empty list, else header plus the accepted titles in
order separated by blank lines plus the fixed encouragement line; in both
cases exactly one farewell line last. -/
def closing_block_spec (k : Nat) (ws : List String) : String :=
  (if ws = [] then "No words were revealed this time. The veil remains for another day."
   else "Here are the words that visited you from the beyond:\n\n" ++
     String.intercalate "\n\n" ws ++
     "\n\nCarry these words carefully; they will open doors when you need them.")
  ++ "\n" ++ closing_farewell k

/-- C5: the code's Closing Summary builder agrees with the specification's
description on every accepted-titles list (and, being a total function, it
never throws): empty list gives the fixed no-words line, non-empty gives
header, titles in acceptance order, encouragement line; one farewell line
is appended last and ends in terminal punctuation. -/
theorem closing_block_matches_spec (k : Nat) (ws : List String) :
    closing_block k { new_session [] with words_revealed := ws } =
      closing_block_spec k ws ∧
    closing_block k { new_session [] with words_revealed := [] } =
      "No words were revealed this time. The veil remains for another day." ++ "\n" ++
        closing_farewell k ∧
    (closing_farewell k).data.getLast? = some '.' := by
  refine ⟨?_, rfl, closing_farewell_ends k⟩
  by_cases hw : ws = []
  · subst hw
    rfl
  · simp [closing_block, closing_block_spec, summary_text, closing_farewell, hw]

/-- C6 counterexample: the `awaitContinue` yes-transition appends the
current cluster's title unconditionally — on a session whose accepted list
already holds the current title, accepting duplicates it, so the claimed
"appends only if not already present" guard does not exist in the code. -/
theorem accept_appends_even_if_present :
    (choose o0 dup_accept_state "yes").1.words_revealed = [titleOf 0, titleOf 0] ∧
    ¬(choose o0 dup_accept_state "yes").1.words_revealed.Nodup := by
  exact ⟨rfl, by decide⟩

/-- C6 (amended): the yes-transition appends unconditionally, but in every
session reachable from `new_session` the accepted list never holds
duplicate titles — an accepted id permanently leaves both pools and the
catalog titles are pairwise distinct, so each cluster's title appears at
most once. -/
theorem accepted_titles_nodup (st : Session) (off : List Nat)
    (h : ReachableG st off) : st.words_revealed.Nodup :=
  (minv_reachable st off h).words_nodup

theorem accepted_titles_nodup_witness :
    (new_session (List.range CLUSTERS.length)).words_revealed.Nodup :=
  accepted_titles_nodup _ []
    (ReachableG.init (List.range CLUSTERS.length) (List.Perm.refl _))

/-- C7 counterexample: in `reofferPrompt` with nothing accepted and
`reoffer_attempts = 1`, answering `no` returns the generic
"session is complete" line — neither the fixed re-offer-limit message nor
the Closing Summary, refuting the claimed two-way choice. -/
theorem reoffer_decline_generic_text :
    (choose o0 reoffer_first_pass_state "no").2.done = true ∧
    (choose o0 reoffer_first_pass_state "no").2.text =
      "Very well. The session is complete. May the meanings serve you." ∧
    (choose o0 reoffer_first_pass_state "no").2.text ≠
      "I have asked you twice about the words you set aside. The veil closes for today." ∧
    (choose o0 reoffer_first_pass_state "no").2.text ≠
      closing_block o0.exitBlessing
        { reoffer_first_pass_state with phase := Phase.done } := by
  exact ⟨rfl, rfl, by decide, by decide⟩

/-- C7 (amended): in `reofferPrompt`, any intent other than yes (and other
than quit/stop) sets `phase = done` and returns a terminal reply whose text
is the Closing Summary when `accepted` is non-empty, and otherwise the
fixed re-offer-limit message when `reoffer_attempts ≥ 2` or the generic
session-complete line when it is still below 2; in particular, with
`accepted` non-empty the text is exactly the Closing Summary. -/
theorem reoffer_non_yes_terminal (o : Draws) (st : Session) (a : String)
    (hph : st.phase = Phase.reofferPrompt)
    (hyes : normalize a ≠ "yes") (hq : normalize a ≠ "quit")
    (hs : normalize a ≠ "stop") :
    (choose o st a).1.phase = Phase.done ∧
    (choose o st a).2.done = true ∧
    (choose o st a).2.text =
      (if st.words_revealed ≠ [] then
        closing_block o.exitBlessing { st with phase := Phase.done }
       else if 2 ≤ st.reoffer_attempts then
        "I have asked you twice about the words you set aside. The veil closes for today."
       else "Very well. The session is complete. May the meanings serve you.") ∧
    (st.words_revealed ≠ [] →
      (choose o st a).2.text =
        closing_block o.exitBlessing { st with phase := Phase.done }) := by
  have hne4 : ¬st.phase = Phase.intro := by rw [hph]; exact fun hh => nomatch hh
  have hne5 : ¬st.phase = Phase.awaitContinue := by rw [hph]; exact fun hh => nomatch hh
  have hne6 : ¬st.phase = Phase.declineConfirm := by rw [hph]; exact fun hh => nomatch hh
  have hne7 : ¬st.phase = Phase.postReveal := by rw [hph]; exact fun hh => nomatch hh
  have hmain : choose o st a =
      ({ st with phase := Phase.done },
        reply { st with phase := Phase.done }
          (if st.words_revealed ≠ [] then
            closing_block o.exitBlessing { st with phase := Phase.done }
           else if 2 ≤ st.reoffer_attempts then
            "I have asked you twice about the words you set aside. The veil closes for today."
           else "Very well. The session is complete. May the meanings serve you.")
          true) := by
    simp only [choose, if_neg (not_or.mpr ⟨hq, hs⟩), if_neg hne4, if_neg hne5,
      if_neg hne6, if_neg hne7, if_pos hph, if_neg hyes]
  rw [hmain]
  refine ⟨rfl, rfl, rfl, fun hw => ?_⟩
  rw [if_pos hw]
  rfl


theorem reoffer_non_yes_terminal_witness :
    (choose o0 reoffer_accepted_state "no").2.done = true ∧
    (choose o0 reoffer_accepted_state "no").2.text =
      closing_block o0.exitBlessing
        { reoffer_accepted_state with phase := Phase.done } := by
  have h := reoffer_non_yes_terminal o0 reoffer_accepted_state "no"
    rfl (by decide) (by decide) (by decide)
  exact ⟨h.2.1, h.2.2.2 (by decide)⟩

/-- C8 counterexample: in `reofferPrompt` an unrecognized answer is treated
as a decline — the session's phase changes to `done` and the reply is
terminal, refuting "state unchanged and non-terminal re-prompt for every
session state". -/
theorem unrecognized_in_reoffer_terminal :
    (choose o0 reoffer_first_pass_state "maybe").2.done = true ∧
    reoffer_first_pass_state.phase = Phase.reofferPrompt ∧
    (choose o0 reoffer_first_pass_state "maybe").1.phase = Phase.done := by
  exact ⟨rfl, rfl, rfl⟩

/-- C8 (amended): in phases `intro`, `awaitContinue`, `declineConfirm` and
`postReveal`, an answer normalizing to an unrecognized intent leaves the
session exactly unchanged and yields a non-terminal re-prompt drawn from
the phase-appropriate guidance pool; in `reofferPrompt` the code instead
treats it as a decline, and in `done` it returns the terminal fallback. -/
theorem unrecognized_intent_state_unchanged (o : Draws) (st : Session) (a : String)
    (h1 : normalize a ≠ "yes") (h2 : normalize a ≠ "no")
    (h3 : normalize a ≠ "quit") (h4 : normalize a ≠ "stop")
    (hph : st.phase = Phase.intro ∨ st.phase = Phase.awaitContinue ∨
      st.phase = Phase.declineConfirm ∨ st.phase = Phase.postReveal) :
    (choose o st a).1 = st ∧ (choose o st a).2.done = false ∧
    (choose o st a).2.text ∈
      (if st.phase = Phase.intro then INVALID_YN_PROMPTS else INVALID_YNE_PROMPTS) := by
  rcases hph with hph | hph | hph | hph
  · have hmain : choose o st a = (st, reply st (choose_invalid_yn o.invalidYN) false) := by
      simp only [choose, if_neg (not_or.mpr ⟨h3, h4⟩), if_pos hph, if_neg h1, if_neg h2]
    rw [hmain]
    exact ⟨rfl, rfl, by rw [if_pos hph]; exact choose_invalid_yn_mem o.invalidYN⟩
  · have hni : ¬st.phase = Phase.intro := by rw [hph]; exact fun hh => nomatch hh
    have hmain : choose o st a = (st, reply st (choose_invalid_yne o.invalidYNE) false) := by
      simp only [choose, if_neg (not_or.mpr ⟨h3, h4⟩), if_neg hni, if_pos hph,
        if_neg h1, if_neg h2]
    rw [hmain]
    exact ⟨rfl, rfl, by rw [if_neg hni]; exact choose_invalid_yne_mem o.invalidYNE⟩
  · have hni : ¬st.phase = Phase.intro := by rw [hph]; exact fun hh => nomatch hh
    have hna : ¬st.phase = Phase.awaitContinue := by
      rw [hph]; exact fun hh => nomatch hh
    have hmain : choose o st a = (st, reply st (choose_invalid_yne o.invalidYNE) false) := by
      simp only [choose, if_neg (not_or.mpr ⟨h3, h4⟩), if_neg hni, if_neg hna,
        if_pos hph, if_neg h1, if_neg h2]
    rw [hmain]
    exact ⟨rfl, rfl, by rw [if_neg hni]; exact choose_invalid_yne_mem o.invalidYNE⟩
  · have hni : ¬st.phase = Phase.intro := by rw [hph]; exact fun hh => nomatch hh
    have hna : ¬st.phase = Phase.awaitContinue := by
      rw [hph]; exact fun hh => nomatch hh
    have hnd : ¬st.phase = Phase.declineConfirm := by
      rw [hph]; exact fun hh => nomatch hh
    have hmain : choose o st a = (st, reply st (choose_invalid_yne o.invalidYNE) false) := by
      simp only [choose, if_neg (not_or.mpr ⟨h3, h4⟩), if_neg hni, if_neg hna,
        if_neg hnd, if_pos hph, if_neg h1, if_neg h2]
    rw [hmain]
    exact ⟨rfl, rfl, by rw [if_neg hni]; exact choose_invalid_yne_mem o.invalidYNE⟩

theorem unrecognized_intent_state_unchanged_witness :
    (choose o0 (new_session (List.range 25)) "hello").1 =
      new_session (List.range 25) ∧
    (choose o0 (new_session (List.range 25)) "hello").2.done = false := by
  have h := unrecognized_intent_state_unchanged o0 (new_session (List.range 25)) "hello"
    (by decide) (by decide) (by decide) (by decide) (Or.inl rfl)
  exact ⟨h.1, h.2.1⟩

/-- C9 counterexample: an unrecognized answer does not pass through as the
raw input — `normalize` returns its stripped lower-cased form, so on
`"MAYBE"` the result is `"maybe"`, not the raw `"MAYBE"`. -/
theorem normalize_lowers_unrecognized :
    normalize "MAYBE" = "maybe" ∧ normalize "MAYBE" ≠ "MAYBE" := by
  exact ⟨rfl, by decide⟩

/-- C9 (amended): `normalize` strips and lower-cases its input, maps
exactly y/yes, n/no, q/quit and s/stop/enough/end through the fixed table,
and passes any other input through as its stripped lower-cased form (a
total function: no input raises). -/
theorem normalize_contract (a : String) :
    (strLower (strTrim a) = "y" ∨ strLower (strTrim a) = "yes" →
      normalize a = "yes") ∧
    (strLower (strTrim a) = "n" ∨ strLower (strTrim a) = "no" →
      normalize a = "no") ∧
    (strLower (strTrim a) = "q" ∨ strLower (strTrim a) = "quit" →
      normalize a = "quit") ∧
    (strLower (strTrim a) = "s" ∨ strLower (strTrim a) = "stop" ∨
      strLower (strTrim a) = "enough" ∨ strLower (strTrim a) = "end" →
      normalize a = "stop") ∧
    (strLower (strTrim a) ∉
        (["y", "yes", "n", "no", "q", "quit", "s", "stop", "enough", "end"] :
          List String) →
      normalize a = strLower (strTrim a)) := by
  refine ⟨?_, ?_, ?_, ?_, ?_⟩
  · intro h
    rcases h with h | h <;> simp only [normalize, h] <;> decide
  · intro h
    rcases h with h | h <;> simp only [normalize, h] <;> decide
  · intro h
    rcases h with h | h <;> simp only [normalize, h] <;> decide
  · intro h
    rcases h with h | h | h | h <;> simp only [normalize, h] <;> decide
  · intro h
    simp only [List.mem_cons, List.not_mem_nil, or_false, not_or] at h
    obtain ⟨n1, n2, n3, n4, n5, n6, n7, n8, n9, n10⟩ := h
    simp [normalize, n1, n2, n3, n4, n5, n6, n7, n8, n9, n10]

theorem normalize_contract_witness :
    normalize " Y " = "yes" ∧ normalize "Hello" = "hello" := by
  refine ⟨(normalize_contract " Y ").1 (Or.inl (by decide)), ?_⟩
  have h := (normalize_contract "Hello").2.2.2.2 (by decide)
  rw [h]
  decide

/-- C10: the GET `/summary` handler never mutates the session store — it
returns the store it was given unchanged — and when the resolved session id
is found, the returned words list is exactly that session's accepted titles
in acceptance order (with `summary_text` of them as the text). -/
theorem summary_get_pure (sessions : List (String × Session))
    (sid ck : Option String) :
    (summary_get sessions sid ck).1 = sessions ∧
    (∀ (s : String) (p : String × Session), resolve_sid sid ck = some s →
      ¬s = "" → sessions.find? (fun q => q.1 == s) = some p →
      (summary_get sessions sid ck).2.1 = summary_text p.2.words_revealed ∧
      (summary_get sessions sid ck).2.2 = p.2.words_revealed) := by
  constructor
  · rcases h : resolve_sid sid ck with _ | s
    · simp only [summary_get, h]
    · by_cases hs : s = ""
      · simp only [summary_get, h, if_pos hs]
      · rcases hf : sessions.find? (fun q => q.1 == s) with _ | p <;>
          simp only [summary_get, h, if_neg hs, hf]
  · intro s p hres hs hf
    simp [summary_get, hres, hs, hf]

theorem summary_get_pure_witness :
    (summary_get [("abc", new_session [])] (some "abc") none).1 =
      [("abc", new_session [])] ∧
    (summary_get [("abc", new_session [])] (some "abc") none).2.2 = [] := by
  have h := summary_get_pure [("abc", new_session [])] (some "abc") none
  refine ⟨h.1, ?_⟩
  have h2 := (h.2 "abc" ("abc", new_session []) rfl (by decide) (by decide)).2
  exact h2

end WordPsychic
